import Mathlib

/-!
# Verification of the goobits blog content pipeline

A shallow embedding, in Lean 4, of the pure core of the goobits blog
package: slug normalization, taxonomy filtering, the category/tag route
loaders, the post pipeline (`getAllPosts`), read-time estimation, RSS
generation with XML escaping, the secure configuration merge, and the
i18n message getter.  Strings are modelled as Lean `String`s (lists of
Unicode scalar values); JavaScript numbers that are used as integers are
modelled as `Nat`/`Int`; `undefined`-able values as `Option`; thrown
errors as `Except`.  Asynchronous effects (file reads, the module
loaders, the in-memory cache and the current time) are passed in as
explicit parameters, so every function here is a pure function of its
inputs.
-/

/-! ## JavaScript character classes

`\s` (and `String.prototype.trim`) match the ECMAScript whitespace and
line-terminator set; `\w` without the unicode flag is `[A-Za-z0-9_]`.
Characters are compared through their scalar values.
-/

/-- The ECMAScript `\s` class (WhiteSpace ∪ LineTerminator), by code point. -/
def isJsSpace (c : Char) : Bool :=
  c.toNat = 0x20 || c.toNat = 0x09 || c.toNat = 0x0a || c.toNat = 0x0b ||
  c.toNat = 0x0c || c.toNat = 0x0d || c.toNat = 0xa0 || c.toNat = 0x1680 ||
  (0x2000 ≤ c.toNat && c.toNat ≤ 0x200a) || c.toNat = 0x2028 ||
  c.toNat = 0x2029 || c.toNat = 0x202f || c.toNat = 0x205f ||
  c.toNat = 0x3000 || c.toNat = 0xfeff

/-- ECMAScript line terminators (`\n`, `\r`, U+2028, U+2029), used by the
multiline anchors and by `.` (which matches anything but these). -/
def isLineTerm (c : Char) : Bool :=
  c.toNat = 0x0a || c.toNat = 0x0d || c.toNat = 0x2028 || c.toNat = 0x2029

/-- ASCII uppercase letters. -/
def isUpperAscii (c : Char) : Bool :=
  0x41 ≤ c.toNat && c.toNat ≤ 0x5a

/-- The ECMAScript `\w` class (no unicode flag): `[A-Za-z0-9_]`. -/
def isWordChar (c : Char) : Bool :=
  (0x30 ≤ c.toNat && c.toNat ≤ 0x39) || (0x41 ≤ c.toNat && c.toNat ≤ 0x5a) ||
  (0x61 ≤ c.toNat && c.toNat ≤ 0x7a) || c.toNat = 0x5f

/-- A character kept by `replace(/[^\w-]+/g, '')`: word characters and `-`. -/
def isWordOrHyphen (c : Char) : Bool :=
  isWordChar c || c = '-'

/-- `String.prototype.toLowerCase`, restricted to its ASCII action
(`A`-`Z` map to `a`-`z`); other characters are left unchanged.  This is
the fragment of Unicode case mapping the blog's inputs exercise: every
non-ASCII character is discarded later by the `[^\w-]` filter anyway. -/
def jsToLowerChar (c : Char) : Char :=
  if isUpperAscii c then Char.ofNat (c.toNat + 32) else c

/-- `trim()`: drop the JS whitespace set from both ends. -/
def jsTrim (l : List Char) : List Char :=
  ((l.dropWhile isJsSpace).reverse.dropWhile isJsSpace).reverse

/-- One pass of `replace(/p+/g, rep)` for a character class `p`: every
maximal run of characters satisfying `p` is replaced by the single
character `rep`.  The flag records whether we are inside a run.
(The hyphen-collapsing step, regex `--+` global, only rewrites runs of
length ≥ 2, but rewriting a run of length 1 to the same single `-` is the
identity, so this function also models it.) -/
def collapseRunsGo (p : Char → Bool) (rep : Char) : Bool → List Char → List Char
  | _, [] => []
  | inRun, c :: cs =>
    if p c then
      if inRun then collapseRunsGo p rep true cs
      else rep :: collapseRunsGo p rep true cs
    else c :: collapseRunsGo p rep false cs

/-- `replace(/p+/g, rep)` on a character list. -/
def collapseRuns (p : Char → Bool) (rep : Char) (l : List Char) : List Char :=
  collapseRunsGo p rep false l

/-- The slugification pipeline on a character list: lower-case, trim,
replace each whitespace run (regex `\s+`, global) by `-`, delete every
character outside `[\w-]`, then collapse each hyphen run (regex `--+`,
global) to a single `-`. -/
def slugifyList (l : List Char) : List Char :=
  collapseRuns (fun c => c = '-') '-'
    ((collapseRuns isJsSpace '-'
      (jsTrim (l.map jsToLowerChar))).filter isWordOrHyphen)

/-- `slugify` from the blog utilities. -/
def slugify (text : String) : String :=
  String.mk (slugifyList text.data)

example : slugify "hello   world" = "hello-world" := by decide
example : slugify "café résumé" = "caf-rsum" := by decide
example : slugify "###" = "" := by decide
example : slugify "  A--B  C " = "a-b-c" := by decide

/-! ## Post data model

Mirrors the `PostMetadata` / `ProcessedPost` interfaces.  Optional
frontmatter fields are `Option`s; `some ""` models a present-but-empty
string (falsy in JS), `none` models `undefined`.
-/

/-- `PostImage`. -/
structure PostImage where
  src : String
  alt : String
  width : Option Nat := none
  height : Option Nat := none
deriving DecidableEq, Repr

/-- `PostAuthor`. -/
structure PostAuthor where
  name : String
  avatar : Option String := none
  url : Option String := none
deriving DecidableEq, Repr

/-- `Partial<PostMetadata>` as it appears in the per-language `i18n`
override records (the `i18n` field itself is always reset to the base
map when such an override is spread, so it is not carried here). -/
structure PartialMeta where
  title : Option String := none
  date : Option String := none
  slug : Option String := none
  categories : Option (List String) := none
  category : Option String := none
  featured : Option Bool := none
  excerpt : Option String := none
  author : Option PostAuthor := none
  image : Option PostImage := none
  thumbnail : Option PostImage := none
  tags : Option (List String) := none
  readTime : Option Nat := none
  updated : Option String := none
deriving DecidableEq, Repr

/-- `PostMetadata`.  The interface declares `title`/`date` required, but
the pipeline defends against their absence at runtime, so they are
`Option`s here as well. -/
structure PostMetadata where
  title : Option String := none
  date : Option String := none
  slug : Option String := none
  categories : Option (List String) := none
  category : Option String := none
  featured : Option Bool := none
  excerpt : Option String := none
  author : Option PostAuthor := none
  image : Option PostImage := none
  thumbnail : Option PostImage := none
  tags : Option (List String) := none
  readTime : Option Nat := none
  updated : Option String := none
  i18n : Option (List (String × PartialMeta)) := none
deriving DecidableEq, Repr

/-- The `metadata: { fm }` envelope of `ProcessedPost`. -/
structure PostEnvelope where
  fm : PostMetadata
deriving DecidableEq, Repr

/-- `ProcessedPost`. -/
structure ProcessedPost where
  metadata : PostEnvelope
  date : String
  urlPath : String
  path : Option String := none
  content : Option String := none
  lang : Option String := none
deriving DecidableEq, Repr

/-- The JS spread `{ ...base, ...override }` on metadata: a field of the
override wins whenever it is present, and the `i18n` field is re-set to
the base post's map (as the source does explicitly). -/
def mergeMeta (base : PostMetadata) (o : PartialMeta) : PostMetadata where
  title := match o.title with | some v => some v | none => base.title
  date := match o.date with | some v => some v | none => base.date
  slug := match o.slug with | some v => some v | none => base.slug
  categories := match o.categories with | some v => some v | none => base.categories
  category := match o.category with | some v => some v | none => base.category
  featured := match o.featured with | some v => some v | none => base.featured
  excerpt := match o.excerpt with | some v => some v | none => base.excerpt
  author := match o.author with | some v => some v | none => base.author
  image := match o.image with | some v => some v | none => base.image
  thumbnail := match o.thumbnail with | some v => some v | none => base.thumbnail
  tags := match o.tags with | some v => some v | none => base.tags
  readTime := match o.readTime with | some v => some v | none => base.readTime
  updated := match o.updated with | some v => some v | none => base.updated
  i18n := base.i18n

/-- `getPostCategories`: the categories array wins; otherwise a truthy
singular `category` yields a singleton; otherwise empty. -/
def getPostCategories (post : ProcessedPost) : List String :=
  match post.metadata.fm.categories with
  | some cats => cats
  | none =>
    match post.metadata.fm.category with
    | some c => if c = "" then [] else [c]
    | none => []

/-- `getPostTags`: the tags array, or empty when absent. -/
def getPostTags (post : ProcessedPost) : List String :=
  match post.metadata.fm.tags with
  | some ts => ts
  | none => []

/-! ## Taxonomy filtering -/

/-- Whether some entry of the post's categories array slugifies to the
target (`hasMatchingCategoryArray` in the source). -/
def hasMatchingCategoryArray (post : ProcessedPost) (categorySlug : String)
    (slugifyFn : String → String) : Bool :=
  match post.metadata.fm.categories with
  | some cats => cats.any fun cat => slugifyFn cat == categorySlug
  | none => false

/-- Whether the singular `category` field slugifies to the target
(`hasMatchingSingularCategory` in the source). -/
def hasMatchingSingularCategory (post : ProcessedPost) (categorySlug : String)
    (slugifyFn : String → String) : Bool :=
  match post.metadata.fm.category with
  | some c => slugifyFn c == categorySlug
  | none => false

/-- Whether some tag of the post slugifies to the target (the
`tags?.some(...)` test in the source; an absent tags array is falsy). -/
def hasMatchingTag (post : ProcessedPost) (tagSlug : String)
    (slugifyFn : String → String) : Bool :=
  match post.metadata.fm.tags with
  | some ts => ts.any fun tag => slugifyFn tag == tagSlug
  | none => false

/-- `filterPostsByCategory(posts, categorySlug, slugifyFn)`. -/
def filterPostsByCategory (posts : List ProcessedPost) (categorySlug : String)
    (slugifyFn : String → String) : List ProcessedPost :=
  posts.filter fun post =>
    let isTagOnly :=
      hasMatchingTag post categorySlug slugifyFn &&
      !hasMatchingCategoryArray post categorySlug slugifyFn &&
      !hasMatchingSingularCategory post categorySlug slugifyFn
    (hasMatchingCategoryArray post categorySlug slugifyFn ||
      hasMatchingSingularCategory post categorySlug slugifyFn) && !isTagOnly

/-- `filterPostsByTag(posts, tagSlug, slugifyFn)`. -/
def filterPostsByTag (posts : List ProcessedPost) (tagSlug : String)
    (slugifyFn : String → String) : List ProcessedPost :=
  posts.filter fun post =>
    let isCategoryOnly :=
      (hasMatchingCategoryArray post tagSlug slugifyFn &&
        !hasMatchingTag post tagSlug slugifyFn) ||
      (hasMatchingSingularCategory post tagSlug slugifyFn &&
        !hasMatchingTag post tagSlug slugifyFn)
    hasMatchingTag post tagSlug slugifyFn && !isCategoryOnly

/-- The category filter as the specification describes it after deleting
the `isTagOnly` exclusion clause: a plain match on the categories array
or singular field.  (Second definition for the refinement claim; written
from the spec's words, to be compared with `filterPostsByCategory`.) -/
def filterPostsByCategorySimple (posts : List ProcessedPost) (categorySlug : String)
    (slugifyFn : String → String) : List ProcessedPost :=
  posts.filter fun post =>
    hasMatchingCategoryArray post categorySlug slugifyFn ||
    hasMatchingSingularCategory post categorySlug slugifyFn

/-- The tag filter with the `isCategoryOnly` exclusion clause deleted
(spec-side definition for the refinement claim). -/
def filterPostsByTagSimple (posts : List ProcessedPost) (tagSlug : String)
    (slugifyFn : String → String) : List ProcessedPost :=
  posts.filter fun post => hasMatchingTag post tagSlug slugifyFn

/-! ## Canonical taxonomy names and the category/tag route loaders -/

/-- `getOriginalTaxonomyName`: first extracted term whose slug equals the
given slug, with the JS `|| slugifiedTerm` fallback (which also fires
when the found term is the empty string, since `''` is falsy). -/
def getOriginalTaxonomyName (posts : List ProcessedPost)
    (extractorFn : ProcessedPost → List String) (slugifiedTerm : String)
    (slugifyFn : String → String) : String :=
  match (posts.flatMap extractorFn).find? (fun term => slugifyFn term == slugifiedTerm) with
  | some t => if t = "" then slugifiedTerm else t
  | none => slugifiedTerm

/-- `replace(/\/$/, '')`: strip a single trailing slash. -/
def stripTrailingSlash (s : String) : String :=
  if s.data.getLast? = some '/' then String.mk (s.data.take (s.data.length - 1))
  else s

/-- `toLowerCase()` on a whole string (ASCII action, see `jsToLowerChar`). -/
def jsToLower (s : String) : String :=
  String.mk (s.data.map jsToLowerChar)

/-- An `Error` carrying an HTTP status, as built by `createHttpError`. -/
structure HttpError where
  message : String
  status : Nat
deriving DecidableEq, Repr

/-- The `_categories.md` metadata record for one category. -/
structure CategoryInfo where
  description : Option String := none
  image : Option String := none
  alt : Option String := none
deriving DecidableEq, Repr

/-- The data record returned by `loadCategory`. -/
structure CategoryPageData where
  posts : List ProcessedPost
  allPosts : List ProcessedPost
  category : String
  currentCategory : String
  categoryDescription : Option String
  categoryImage : Option String
  categoryImageAlt : Option String
  lang : String
deriving DecidableEq, Repr

/-- The data record returned by `loadTag`. -/
structure TagPageData where
  posts : List ProcessedPost
  allPosts : List ProcessedPost
  tag : String
  currentTag : String
  lang : String
deriving DecidableEq, Repr

/-- `loadCategory(categorySlugParam, lang)`.  The two asynchronous reads
it performs — `getAllPosts` and `loadCategoryDescriptions` — are passed
in as the already-resolved `allPosts` list and `categoryDescriptions`
association list. -/
def loadCategory (allPosts : List ProcessedPost)
    (categoryDescriptions : List (String × CategoryInfo))
    (categorySlugParam : String) (lang : String) :
    Except HttpError CategoryPageData :=
  if categorySlugParam = "" then
    .error ⟨"Category not specified", 404⟩
  else
    let slug := stripTrailingSlash categorySlugParam
    let slugLowerCase := jsToLower slug
    let categoryInfo := (categoryDescriptions.lookup slugLowerCase).getD {}
    let posts := filterPostsByCategory allPosts slugLowerCase slugify
    let originalCategory :=
      getOriginalTaxonomyName allPosts getPostCategories slugLowerCase slugify
    if posts.length = 0 ∧ originalCategory = "" then
      .error ⟨"Category \"" ++ slug ++ "\" not found or has no posts", 404⟩
    else
      .ok {
        posts := posts
        allPosts := allPosts
        category := if originalCategory = "" then slug else originalCategory
        currentCategory := if originalCategory = "" then slug else originalCategory
        categoryDescription := categoryInfo.description
        categoryImage := categoryInfo.image
        categoryImageAlt := categoryInfo.alt
        lang := lang }

/-- `loadTag(tagSlugParam, lang)`, with `getAllPosts` passed in
pre-resolved. -/
def loadTag (allPosts : List ProcessedPost) (tagSlugParam : String)
    (lang : String) : Except HttpError TagPageData :=
  if tagSlugParam = "" then
    .error ⟨"Tag not specified", 404⟩
  else
    let slug := stripTrailingSlash tagSlugParam
    let slugLowerCase := jsToLower slug
    let posts := filterPostsByTag allPosts slugLowerCase slugify
    let originalTag :=
      getOriginalTaxonomyName allPosts getPostTags slugLowerCase slugify
    if posts.length = 0 ∧ originalTag = "" then
      .error ⟨"Tag \"" ++ slug ++ "\" not found or has no posts", 404⟩
    else
      .ok {
        posts := posts
        allPosts := allPosts
        tag := if originalTag = "" then slug else originalTag
        currentTag := if originalTag = "" then slug else originalTag
        lang := lang }

/-- `split(sep)` for a single-character separator, on character lists
(`"a/b".split('/') = ["a","b"]`, `"".split('/') = [""]`). -/
def splitOnChar (sep : Char) : List Char → List (List Char)
  | [] => [[]]
  | c :: cs =>
    if c = sep then [] :: splitOnChar sep cs
    else
      match splitOnChar sep cs with
      | [] => [[c]]
      | l :: ls => (c :: l) :: ls

/-! ## Read-time estimation

`calculateReadTime` strips HTML tags (regex `<[^>]*>` global), counts
whitespace-delimited words, counts matches of the multiline heading
regex (`#` run, then whitespace, then at least one more character before
the line end), and combines them with the configured thresholds.
-/

/-- The tag-stripping scan, regex `<[^>]*>` global: on `<`, buffer
characters until the next `>` (dropping the whole tag); a `<` with no
later `>` never matches, so its buffered characters are emitted verbatim
at the end of the input. -/
def stripTagsGo : Option (List Char) → List Char → List Char
  | none, [] => []
  | some buf, [] => buf.reverse
  | none, c :: cs =>
    if c = '<' then stripTagsGo (some [c]) cs else c :: stripTagsGo none cs
  | some buf, c :: cs =>
    if c = '>' then stripTagsGo none cs else stripTagsGo (some (c :: buf)) cs

/-- `content.replace(/<[^>]*>/g, '')`. -/
def stripTags (l : List Char) : List Char :=
  stripTagsGo none l

/-- Word counting as `trim().split(regex \s+).filter(Boolean).length`:
the number of maximal runs of non-whitespace characters. -/
def countWordsGo : Bool → List Char → Nat
  | _, [] => 0
  | inWord, c :: cs =>
    if isJsSpace c then countWordsGo false cs
    else (if inWord then 0 else 1) + countWordsGo true cs

/-- The word count of a character list. -/
def countWords (l : List Char) : Nat :=
  countWordsGo false l

/-- Whether the multiline heading regex (one or more `#`, then `\s+`,
then `.+`, then the line end) matches at the start of `l` (which is a
line-start position), and if so how many characters the leftmost greedy
match consumes.  `\s` may cross line terminators, and `.` matches any
character except a line terminator, so after the `#` run and a non-empty
whitespace block the match needs one more non-line-terminator character;
greedy backtracking picks the largest whitespace split that leaves one. -/
def headingMatchEnd (l : List Char) : Option Nat :=
  let h := (l.takeWhile (fun c => c = '#')).length
  if h = 0 then none
  else
    let rest := l.drop h
    let w := (rest.takeWhile isJsSpace).length
    if w = 0 then none
    else if w < rest.length then
      some (h + w + ((rest.drop w).takeWhile (fun c => !isLineTerm c)).length)
    else
      let t := (rest.reverse.takeWhile isLineTerm).length
      if t + 2 ≤ w then some (h + w - t) else none

/-- Skip to just after the next line terminator (the next line-start
position); if none remains, the scan is over. -/
def dropThroughLineTerm : List Char → List Char
  | [] => []
  | c :: cs => if isLineTerm c then cs else dropThroughLineTerm cs

/-- The global multiline scan counting heading matches.  Each step either
consumes a whole match (which always ends right before a line terminator
or at the end of input) or abandons the current line; both strictly
consume input, so the input length is enough fuel. -/
def countHeadingsGo (fuel : Nat) (l : List Char) : Nat :=
  match fuel with
  | 0 => 0
  | fuel + 1 =>
    match l with
    | [] => 0
    | _ =>
      match headingMatchEnd l with
      | some e => 1 + countHeadingsGo fuel (dropThroughLineTerm (l.drop e))
      | none => countHeadingsGo fuel (dropThroughLineTerm l)

/-- `(content.match(multiline heading regex) || []).length`. -/
def countHeadings (l : List Char) : Nat :=
  countHeadingsGo l.length l

/-- The read-time configuration record (all values integral in the shipped
defaults and tests). -/
structure ReadTimeConfig where
  wordsPerMinute : Nat
  defaultTime : Nat
  minTimeForLongArticle : Nat
  minTimeForVeryLongArticle : Nat
  longArticleThreshold : Nat
  veryLongArticleThreshold : Nat
  headingsWeight : Nat
deriving DecidableEq, Repr

/-- `Math.ceil(a / b)` on naturals. -/
def jsCeilDiv (a b : Nat) : Nat :=
  (a + b - 1) / b

/-- `calculateReadTime(content, options)`.  The three-way configuration
merge (explicit options over `blogConfig` over the built-in defaults)
is resolved into the single record `cfg`; the `!content` guard returns
the configured default time. -/
def calculateReadTime (content : String) (cfg : ReadTimeConfig) : Nat :=
  if content = "" then cfg.defaultTime
  else
    let cleanContent := stripTags content.data
    let wordCount := countWords cleanContent
    let headingCount := countHeadings content.data
    let base := jsCeilDiv wordCount cfg.wordsPerMinute
    let withHeadings :=
      if headingCount > 0 then base + jsCeilDiv headingCount cfg.headingsWeight
      else base
    let adjusted :=
      if wordCount > cfg.veryLongArticleThreshold then
        max withHeadings cfg.minTimeForVeryLongArticle
      else if wordCount > cfg.longArticleThreshold then
        max withHeadings cfg.minTimeForLongArticle
      else withHeadings
    max adjusted cfg.defaultTime

/-- The specification's heading count: the number of lines (split on
newline) beginning with one or more `#`.  (Spec-side definition, used to
compare the claimed formula with the code.) -/
def claimHeadingCount (content : String) : Nat :=
  ((splitOnChar '\n' content.data).filter
    (fun line => line.head? == some '#')).length

/-- The claimed closed-form read time: ceil(words per minute quotient)
plus ceil(headings over headings weight) with `claimHeadingCount` as the
heading count, floored by the long/very-long minimums and the default
time.  (Spec-side definition for the comparison.) -/
def claimReadTime (content : String) (cfg : ReadTimeConfig) : Nat :=
  let words := countWords (stripTags content.data)
  let hc := claimHeadingCount content
  let base := jsCeilDiv words cfg.wordsPerMinute + jsCeilDiv hc cfg.headingsWeight
  let floored :=
    if words > cfg.veryLongArticleThreshold then max base cfg.minTimeForVeryLongArticle
    else if words > cfg.longArticleThreshold then max base cfg.minTimeForLongArticle
    else base
  max floored cfg.defaultTime

/-- The corrected closed-form read time: as claimed, but with the heading
count the code actually computes (the multiline regex match count). -/
def readTimeFormula (content : String) (cfg : ReadTimeConfig) : Nat :=
  let words := countWords (stripTags content.data)
  let hc := countHeadings content.data
  let base := jsCeilDiv words cfg.wordsPerMinute + jsCeilDiv hc cfg.headingsWeight
  let floored :=
    if words > cfg.veryLongArticleThreshold then max base cfg.minTimeForVeryLongArticle
    else if words > cfg.longArticleThreshold then max base cfg.minTimeForLongArticle
    else base
  max floored cfg.defaultTime

example : countHeadings "# Hello\nworld\n## Sub".data = 2 := by decide
example : countHeadings "#x y".data = 0 := by decide
example : countWords (stripTags "<p>one two</p> three".data) = 3 := by decide

/-! ## RSS feed generation and XML escaping -/

/-- Truthiness of an optional string: present and non-empty. -/
def truthyStr (o : Option String) : Bool :=
  match o with
  | some s => s ≠ ""
  | none => false

/-- `replace` of every occurrence of the single character `c` by the
string `rep` (one global single-character regex replace). -/
def replaceAllChar (c : Char) (rep : List Char) : List Char → List Char
  | [] => []
  | x :: xs => (if x = c then rep else [x]) ++ replaceAllChar c rep xs

/-- `escapeXml(str)`: the five sequential global replaces, ampersand
first, exactly in source order. -/
def escapeXml (str : String) : String :=
  if str = "" then ""
  else
    String.mk
      (replaceAllChar '\'' "&apos;".data
        (replaceAllChar '"' "&quot;".data
          (replaceAllChar '>' "&gt;".data
            (replaceAllChar '<' "&lt;".data
              (replaceAllChar '&' "&amp;".data str.data)))))

/-- The XML entity for one character (identity on non-special
characters).  Spec-side single-pass description of the escaping. -/
def xmlEntityOf (c : Char) : List Char :=
  if c = '&' then "&amp;".data
  else if c = '<' then "&lt;".data
  else if c = '>' then "&gt;".data
  else if c = '"' then "&quot;".data
  else if c = '\'' then "&apos;".data
  else [c]

/-- Single-pass escaping of a character list. -/
def singlePassEscapeList : List Char → List Char
  | [] => []
  | c :: cs => xmlEntityOf c ++ singlePassEscapeList cs

/-- Single-pass escaping of a string: each character is replaced by its
entity independently, so no entity is ever escaped twice. -/
def singlePassEscape (s : String) : String :=
  String.mk (singlePassEscapeList s.data)

/-- The blog configuration fields the RSS generator and URL helpers
read (`config.name`, `config.description`, `config.uri`,
`config.posts.excerptLength`). -/
structure BlogCfg where
  name : String
  description : String
  uri : String
  excerptLength : Nat
deriving DecidableEq, Repr

/-- `RssFeedOptions`. -/
structure RssFeedOptions where
  siteUrl : String
  feedTitle : Option String := none
  feedDescription : Option String := none
  feedPath : Option String := none
  maxItems : Option Nat := none
  language : Option String := none
deriving DecidableEq, Repr

/-- `getPostUrl(post)` (without language localization, as the RSS
generator calls it): the blog URI plus the post's `urlPath`, or the
blog URI alone when the post has no `urlPath`. -/
def getPostUrl (cfg : BlogCfg) (post : ProcessedPost) : String :=
  if post.urlPath = "" then cfg.uri else cfg.uri ++ post.urlPath

/-- The index of the last space of a character list, if any
(`lastIndexOf(' ')` with `none` for `-1`). -/
def lastSpaceIdx (l : List Char) : Option Nat :=
  match l.reverse.findIdx? (fun c => c = ' ') with
  | some j => some (l.length - 1 - j)
  | none => none

/-- `getPostExcerpt(post, maxLength)`: the frontmatter excerpt, or a
cleaned prefix of the body (tags stripped, markdown punctuation deleted,
newline runs collapsed to one space, trimmed, cut to twice the limit),
then word-boundary truncation with a `...` suffix when over the limit. -/
def getPostExcerpt (excerptLengthCfg : Nat) (post : ProcessedPost)
    (maxLength : Option Nat) : String :=
  let limit := maxLength.getD excerptLengthCfg
  let fmExcerpt := (post.metadata.fm.excerpt).getD ""
  let excerpt :=
    if fmExcerpt = "" ∧ truthyStr post.content then
      String.mk
        ((jsTrim
          (collapseRuns (fun c => c = '\n') ' '
            ((stripTags (post.content.getD "").data).filter
              (fun c => !(c = '#' ∨ c = '*' ∨ c = '_' ∨ c = '~' ∨ c = '`'))))).take
          (limit * 2))
    else fmExcerpt
  if excerpt.length > limit then
    let truncated := excerpt.data.take limit
    let cut :=
      match lastSpaceIdx truncated with
      | some k => if k > 0 then truncated.take k else truncated
      | none => truncated
    String.mk cut ++ "..."
  else excerpt

/-- Concatenation of a list of strings in order (the `xml +=`
accumulation / `join('')` the generator performs). -/
def concatStrings : List String → String
  | [] => ""
  | s :: rest => s ++ concatStrings rest

/-- First-occurrence deduplication, as `[...new Set(xs)]` (a JS `Set`
iterates in insertion order). -/
def jsSetDedupGo : List String → List String → List String
  | _, [] => []
  | seen, x :: xs =>
    if seen.contains x then jsSetDedupGo seen xs
    else x :: jsSetDedupGo (x :: seen) xs

/-- `getRssCategoriesXml(post)`: categories (array, else truthy singular)
followed by tags, deduplicated, one indented `<category>` line each. -/
def getRssCategoriesXml (post : ProcessedPost) : String :=
  let categories :=
    (match post.metadata.fm.categories with
      | some cats => cats
      | none =>
        match post.metadata.fm.category with
        | some c => if c = "" then [] else [c]
        | none => []) ++
    (match post.metadata.fm.tags with
      | some ts => ts
      | none => [])
  concatStrings
    ((jsSetDedupGo [] categories).map
      (fun category => "    <category>" ++ escapeXml category ++ "</category>\n"))

/-- The `<item>` title: `post.metadata.fm.title || 'Untitled Post'`. -/
def rssItemTitle (post : ProcessedPost) : String :=
  match post.metadata.fm.title with
  | some t => if t = "" then "Untitled Post" else t
  | none => "Untitled Post"

/-- The `<item>` description source:
`getPostExcerpt(post, 300) || 'No description available'`. -/
def rssItemExcerpt (cfg : BlogCfg) (post : ProcessedPost) : String :=
  let e := getPostExcerpt cfg.excerptLength post (some 300)
  if e = "" then "No description available" else e

/-- The `<item>` author: `post.metadata.fm.author?.name || config.name`. -/
def rssItemAuthor (cfg : BlogCfg) (post : ProcessedPost) : String :=
  match post.metadata.fm.author with
  | some a => if a.name = "" then cfg.name else a.name
  | none => cfg.name

/-- One `<item>` block.  `fmtDate` models
`(s) => new Date(s).toUTCString()`. -/
def rssItemXml (cfg : BlogCfg) (fmtDate : String → String) (baseUrl : String)
    (post : ProcessedPost) : String :=
  let postUrl := baseUrl ++ getPostUrl cfg post
  let pubDate := fmtDate post.date
  let modifiedDate :=
    match post.metadata.fm.updated with
    | some u => if u = "" then none else some (fmtDate u)
    | none => none
  "  <item>\n    " ++
    ("<title>" ++ escapeXml (rssItemTitle post) ++ "</title>") ++
    "\n    <link>" ++ postUrl ++
    "</link>\n    <guid isPermaLink=\"true\">" ++ postUrl ++
    "</guid>\n    <pubDate>" ++ pubDate ++ "</pubDate>\n" ++
    (match modifiedDate with
      | some md => "    <lastBuildDate>" ++ md ++ "</lastBuildDate>\n"
      | none => "") ++
    "\n    " ++
    ("<description>" ++ escapeXml (rssItemExcerpt cfg post) ++ "</description>") ++
    "\n    " ++
    ("<author>" ++ escapeXml (rssItemAuthor cfg post) ++ "</author>") ++
    "\n" ++ getRssCategoriesXml post ++ "\n  </item>\n"

/-- A post the RSS generator keeps:
`post?.metadata?.fm?.title && post?.date` truthy. -/
def rssValid (post : ProcessedPost) : Bool :=
  truthyStr post.metadata.fm.title && post.date ≠ ""

/-- The generator's `limitedPosts`: valid posts, truncated to the item
limit. -/
def rssSelectedPosts (posts : List ProcessedPost) (maxItems : Nat) :
    List ProcessedPost :=
  (posts.filter rssValid).take maxItems

/-- The fixed `<channel>` preamble of the feed. -/
def rssHeaderXml (cfg : BlogCfg) (now : String) (baseUrl feedTitle feedDescription feedPath language : String) : String :=
  "<?xml version=\"1.0\" encoding=\"UTF-8\" ?>\n<rss version=\"2.0\" xmlns:atom=\"http://www.w3.org/2005/Atom\" xmlns:content=\"http://purl.org/rss/1.0/modules/content/\">\n<channel>\n  <title>" ++
  escapeXml feedTitle ++ "</title>\n  <link>" ++ baseUrl ++ cfg.uri ++
  "</link>\n  <description>" ++ escapeXml feedDescription ++
  "</description>\n  <language>" ++ language ++
  "</language>\n  <lastBuildDate>" ++ now ++
  "</lastBuildDate>\n  <generator>SvelteKit Blog RSS Generator</generator>\n  <atom:link href=\"" ++
  baseUrl ++ feedPath ++ "\" rel=\"self\" type=\"application/rss+xml\" />\n"

/-- `generateRssFeed(posts, options)`.  `now` models
`new Date().toUTCString()` and `fmtDate` the per-date
`new Date(s).toUTCString()`; a missing `siteUrl` is the thrown error. -/
def generateRssFeed (cfg : BlogCfg) (now : String) (fmtDate : String → String)
    (posts : List ProcessedPost) (options : RssFeedOptions) :
    Except String String :=
  if options.siteUrl = "" then .error "siteUrl is required to generate RSS feed"
  else
    let feedTitle := options.feedTitle.getD cfg.name
    let feedDescription := options.feedDescription.getD cfg.description
    let feedPath := options.feedPath.getD (cfg.uri ++ "/rss.xml")
    let maxItems := options.maxItems.getD 20
    let language := options.language.getD "en"
    let baseUrl := stripTrailingSlash options.siteUrl
    let limitedPosts := rssSelectedPosts posts maxItems
    .ok
      (rssHeaderXml cfg now baseUrl feedTitle feedDescription feedPath language ++
        concatStrings (limitedPosts.map (rssItemXml cfg fmtDate baseUrl)) ++
        "</channel>\n</rss>")

example : escapeXml "a&<b>\"c'" = "a&amp;&lt;b&gt;&quot;c&apos;" := by decide

/-! ## The post pipeline (`getAllPosts`)

The asynchronous collaborators are parameters: `parseDate` models
`new Date(s)` together with the `isNaN(getTime())` validity check
(`none` = invalid date), exposing exactly the accessors the code uses
(`getFullYear`, `getMonth`, `getTime`); `contentOf` models
`getMarkdownContent`; `files` is the resolved module map in enumeration
order.  The five-minute cache layer is elided: it only ever replays a
previously computed result of this same pure computation.
-/

/-- The JS `Date` API surface used by the pipeline. -/
structure JsDate where
  year : Int
  monthIndex : Nat
  time : Int
deriving DecidableEq, Repr

/-- `GetAllPostsOptions` with its defaults. -/
structure GetAllPostsOptions where
  lang : String := "en"
  includeContent : Bool := false
  includeLocalizedVersions : Bool := false
deriving DecidableEq, Repr

/-- A resolved post module (`{ metadata }`). -/
structure PostModule where
  metadata : PostMetadata
deriving DecidableEq, Repr

/-- `getPostReadTime(post, options)` on the minimal post the pipeline
builds for it: explicit truthy `readTime` wins; else a truthy body is
measured; else a truthy excerpt is measured and tripled (floored at the
default); else the default. -/
def getPostReadTime (cfg : ReadTimeConfig) (readTime : Option Nat)
    (content : Option String) (excerpt : Option String) : Nat :=
  if (match readTime with | some n => n != 0 | none => false) then readTime.getD 0
  else if truthyStr content then calculateReadTime (content.getD "") cfg
  else if truthyStr excerpt then
    max (calculateReadTime (excerpt.getD "") cfg * 3) cfg.defaultTime
  else cfg.defaultTime

/-- `replace(pat, repl)` with a string pattern: JS replaces only the
first occurrence. -/
def replaceFirstList (pat repl : List Char) : List Char → List Char
  | [] => if pat.isEmpty then repl else []
  | c :: cs =>
    if pat.isPrefixOf (c :: cs) then repl ++ (c :: cs).drop pat.length
    else c :: replaceFirstList pat repl cs

/-- `s.replace(pat, repl)` on strings (first occurrence only). -/
def replaceFirstStr (s pat repl : String) : String :=
  String.mk (replaceFirstList pat.data repl.data s.data)

/-- `n.toString().padStart(2, '0')`. -/
def pad2 (n : Nat) : String :=
  let s := toString n
  if s.length ≥ 2 then s else String.mk (List.replicate (2 - s.length) '0') ++ s

/-- The slug of a module: explicit `slug` frontmatter if truthy, else the
filename (last path segment with its first `.md` removed). -/
def derivedSlug (m : PostModule) (filePath : String) : String :=
  let filenamePart := String.mk ((splitOnChar '/' filePath.data).getLastD [])
  let filename := if filenamePart = "" then "" else replaceFirstStr filenamePart ".md" ""
  match m.metadata.slug with
  | some s => if s = "" then filename else s
  | none => filename

/-- The derived URL path
`/{getFullYear()}/{(getMonth()+1) zero-padded}/{slug}`. -/
def urlPathOf (jd : JsDate) (slug : String) : String :=
  "/" ++ toString jd.year ++ "/" ++ pad2 (jd.monthIndex + 1) ++ "/" ++ slug

/-- The sort key `new Date(s).getTime()` (every post the pipeline emits
has a parseable date, so the `none` branch is never hit on its output). -/
def timeOfD (parseDate : String → Option JsDate) (s : String) : Int :=
  match parseDate s with
  | some jd => jd.time
  | none => 0

/-- The descending-date comparator of the final sort. -/
def postDateGE (parseDate : String → Option JsDate) (a b : ProcessedPost) : Prop :=
  timeOfD parseDate b.date ≤ timeOfD parseDate a.date

instance (pd : String → Option JsDate) : DecidableRel (postDateGE pd) :=
  fun _ _ => Int.decLe _ _

instance (pd : String → Option JsDate) : IsTotal ProcessedPost (postDateGE pd) :=
  ⟨fun _ _ => (Int.le_total _ _).symm⟩

instance (pd : String → Option JsDate) : IsTrans ProcessedPost (postDateGE pd) :=
  ⟨fun _ _ _ hab hbc => le_trans hbc hab⟩

/-- Processing of one discovered module: skip on a missing/empty or
unparsable date; otherwise build the base post (derived `urlPath`, read
time fill-in, import path) and expand or substitute localizations
according to the options.  Returns the (possibly empty) list of posts
this module contributes. -/
def processModule (cfg : ReadTimeConfig) (parseDate : String → Option JsDate)
    (contentOf : String → String) (opts : GetAllPostsOptions)
    (filePath : String) (m : PostModule) : List ProcessedPost :=
  match m.metadata.date with
  | none => []
  | some d =>
    if d = "" then []
    else
      match parseDate d with
      | none => []
      | some jd =>
        let slug := derivedSlug m filePath
        let urlPath := urlPathOf jd slug
        let content := if opts.includeContent then contentOf filePath else ""
        let hasExplicitReadTime : Bool :=
          match m.metadata.readTime with | some n => n != 0 | none => false
        let readTime :=
          if hasExplicitReadTime then m.metadata.readTime.getD 0
          else getPostReadTime cfg m.metadata.readTime (some content) m.metadata.excerpt
        let fm :=
          if hasExplicitReadTime then m.metadata
          else { m.metadata with readTime := some readTime }
        let importPath := replaceFirstStr filePath "@blog/" "/src/content/Blog/"
        let basePost : ProcessedPost := {
          metadata := ⟨fm⟩
          date := d
          urlPath := urlPath
          path := some importPath
          content := some content
          lang := some "en" }
        if opts.includeLocalizedVersions && m.metadata.i18n.isSome then
          basePost ::
            (m.metadata.i18n.getD []).map (fun entry =>
              { basePost with
                  metadata := ⟨mergeMeta fm entry.2⟩
                  lang := some entry.1 })
        else if opts.lang != "en" &&
            (match m.metadata.i18n with
              | some l => (l.lookup opts.lang).isSome
              | none => false) then
          [{ basePost with
              metadata :=
                ⟨mergeMeta fm (((m.metadata.i18n.getD []).lookup opts.lang).getD {})⟩
              lang := some opts.lang }]
        else [basePost]

/-- `getAllPosts(options)`: process every module, flatten, drop the
skipped ones, and sort descending by date (`Array.prototype.sort` is
stable; insertion sort models it). -/
def getAllPosts (cfg : ReadTimeConfig) (parseDate : String → Option JsDate)
    (contentOf : String → String) (files : List (String × PostModule))
    (opts : GetAllPostsOptions) : List ProcessedPost :=
  List.insertionSort (postDateGE parseDate)
    (files.flatMap (fun fm => processModule cfg parseDate contentOf opts fm.1 fm.2))

/-! ## Secure configuration merge

JSON-like values: plain objects are association lists of own properties
in insertion order (JS object keys are unique); everything the merge
treats atomically (strings, numbers, booleans, `null`, arrays) is a
non-object constructor.
-/

/-- A JavaScript value as the merge sees it. -/
inductive Js where
  | str (s : String)
  | num (n : Int)
  | bool (b : Bool)
  | null
  | arr (elems : List Js)
  | obj (fields : List (String × Js))
deriving Repr

/-- `isPlainObject`: non-null, `typeof 'object'`, not an array. -/
def isPlainObjectJs : Js → Bool
  | .obj _ => true
  | _ => false

/-- `isSafeKey(key)`: not one of the prototype-chain names. -/
def isSafeKey (key : String) : Bool :=
  !(["__proto__", "constructor", "prototype"].contains key)

/-- Whether a field list has an own property named `k`. -/
def hasKey (l : List (String × Js)) (k : String) : Bool :=
  l.any (fun p => p.1 == k)

/-- `result[key] = value` on an object: update in place when the key
exists (JS preserves the property's position), else append. -/
def setKey (l : List (String × Js)) (k : String) (v : Js) : List (String × Js) :=
  if hasKey l k then l.map (fun p => if p.1 == k then (k, v) else p)
  else l ++ [(k, v)]

/-- `result[key]` lookup. -/
def lookupField (l : List (String × Js)) (k : String) : Option Js :=
  (l.find? (fun p => p.1 == k)).map (fun p => p.2)

mutual

/-- `secureDeepMerge(target, source)`: copy the target, then (only when
the source is a plain object) merge each of its own properties in order,
skipping unsafe keys, recursing into plain-object values (against the
target's object value there, or a fresh empty object) and copying
everything else wholesale. -/
def secureDeepMerge (target : List (String × Js)) (source : Js) :
    List (String × Js) :=
  match source with
  | .obj fields => mergeEntries target fields
  | _ => target
termination_by sizeOf source

/-- The `Object.keys(source).forEach` loop of `secureDeepMerge`. -/
def mergeEntries (result : List (String × Js)) (entries : List (String × Js)) :
    List (String × Js) :=
  match entries with
  | [] => result
  | (k, v) :: rest =>
    if isSafeKey k then
      if isPlainObjectJs v then
        let targetObj :=
          match lookupField result k with
          | some (.obj t) => t
          | _ => []
        mergeEntries (setKey result k (.obj (secureDeepMerge targetObj v))) rest
      else mergeEntries (setKey result k v) rest
    else mergeEntries result rest
termination_by sizeOf entries

end

/-! ## Messages and the i18n getter

`MessageValue` mirrors the TS type: a string, a function, or a one-level
nested record of strings/functions.  Message functions receive the
getter's trailing arguments; they are modelled as total functions from
the (string-rendered) argument list, with a missing argument rendering
as JS `undefined` does in a template literal.
-/

/-- The helper reading argument `i` of a message function's argument
list (`undefined` interpolates as the literal text). -/
def msgArg (args : List String) (i : Nat) : String :=
  args.getD i "undefined"

/-- A value of a nested message record. -/
inductive MessageLeaf where
  | str (v : String)
  | fn (f : List String → String)

/-- A message value: string, function, or nested record. -/
inductive MessageValue where
  | str (v : String)
  | fn (f : List String → String)
  | obj (entries : List (String × MessageLeaf))

/-- A nested-record value returned verbatim by the getter. -/
def MessageLeaf.toValue : MessageLeaf → MessageValue
  | .str v => .str v
  | .fn f => .fn f

set_option maxHeartbeats 2000000 in
/-- The built-in `defaultMessages` table, in source order. -/
def defaultMessages : List (String × MessageValue) := [
  ("readMore", .str "Read more"),
  ("loading", .str "Loading..."),
  ("author", .str "Author"),
  ("tags", .str "Tags"),
  ("relatedPosts", .str "Related Posts"),
  ("backToBlog", .str "Back to Blog"),
  ("linkCopied", .str "Link copied to clipboard"),
  ("copyLink", .str "Copy link"),
  ("sharePost", .str "Share this post"),
  ("minRead", .fn (fun args => msgArg args 0 ++ " min read")),
  ("itemCount", .fn (fun args => msgArg args 0 ++ " items")),
  ("untitledPost", .str "Untitled Post"),
  ("by", .str "by"),
  ("publishedOn", .str "Published on"),
  ("shareTitle", .str "Share this article"),
  ("shareSubtitle", .str "If you found this article helpful, share it with your network"),
  ("shareFacebook", .str "Share on Facebook"),
  ("shareTwitter", .str "Share on Twitter"),
  ("shareCopyLink", .str "Copy Link"),
  ("uncategorized", .str "Uncategorized"),
  ("moreTags", .str "More tags"),
  ("moreCategories", .str "More categories"),
  ("exploreArticles", .fn (fun args => "Explore articles tagged with \"" ++ msgArg args 0 ++ "\"")),
  ("categories", .str "Categories"),
  ("subscribe", .str "Subscribe"),
  ("subscribeRSS", .str "Subscribe to RSS"),
  ("newsletterTitle", .str "Subscribe to our Newsletter"),
  ("newsletterDescription", .str "Get the latest posts delivered right to your inbox"),
  ("newsletterSubscribe", .str "Subscribe"),
  ("emailPlaceholder", .str "Enter your email"),
  ("previousPage", .str "Previous"),
  ("nextPage", .str "Next"),
  ("page", .fn (fun args => "Page " ++ msgArg args 0)),
  ("pageOf", .fn (fun args => "Page " ++ msgArg args 0 ++ " of " ++ msgArg args 1)),
  ("noMorePosts", .str "No more posts to load"),
  ("loadMore", .str "Load more posts"),
  ("homePageTitle", .fn (fun args => msgArg args 0 ++ " - " ++ msgArg args 1)),
  ("homePageDescription", .fn (fun args => msgArg args 0 ++ ". Read the latest posts from " ++ msgArg args 1 ++ ".")),
  ("categoryPageTitle", .fn (fun args => msgArg args 0 ++ " - " ++ msgArg args 1)),
  ("categoryPageDescription", .fn (fun args => "Browse all " ++ msgArg args 0 ++ " posts on " ++ msgArg args 1 ++ ". Find the latest articles and insights.")),
  ("tagPageTitle", .fn (fun args => msgArg args 0 ++ " - " ++ msgArg args 1)),
  ("tagPageDescription", .fn (fun args => "Explore all posts tagged with " ++ msgArg args 0 ++ " on " ++ msgArg args 1 ++ ".")),
  ("noPosts", .str "No posts available"),
  ("noPostsInCategory", .str "No posts in this category"),
  ("noPostsWithTag", .str "No posts with this tag"),
  ("searchNoResults", .str "No results found"),
  ("loadingError", .str "Error loading content"),
  ("notFound", .str "Content not found"),
  ("switchLanguage", .str "Switch language"),
  ("currentLanguage", .str "Current language"),
  ("home", .str "Home"),
  ("shareOnFacebook", .str "Share on Facebook"),
  ("shareOnTwitter", .str "Share on Twitter"),
  ("shareOnLinkedIn", .str "Share on LinkedIn"),
  ("shareViaEmail", .str "Share via Email"),
  ("publishDate", .str "Published"),
  ("updateDate", .str "Updated"),
  ("readTime", .str "Read time"),
  ("searchPosts", .str "Search posts"),
  ("searchPlaceholder", .str "Search..."),
  ("searchResults", .fn (fun args => msgArg args 0 ++ " results found")),
  ("archive", .str "Archive"),
  ("archiveByMonth", .str "Posts by Month"),
  ("archiveByYear", .str "Posts by Year"),
  ("comments", .str "Comments"),
  ("addComment", .str "Add a comment"),
  ("noComments", .str "No comments yet"),
  ("copyright", .fn (fun args => "© " ++ msgArg args 0 ++ " " ++ msgArg args 1 ++ ". All rights reserved.")),
  ("skipToContent", .str "Skip to content"),
  ("menuToggle", .str "Toggle menu"),
  ("closeMenu", .str "Close menu"),
  ("expandMenu", .str "Expand menu"),
  ("today", .str "Today"),
  ("yesterday", .str "Yesterday"),
  ("daysAgo", .fn (fun args => msgArg args 0 ++ " days ago")),
  ("monthsAgo", .fn (fun args => msgArg args 0 ++ " months ago")),
  ("yearsAgo", .fn (fun args => msgArg args 0 ++ " years ago"))]

/-- JS `fallback || d`: the fallback when it is a truthy (non-empty)
string, else `d`. -/
def fallbackOr (fb : Option String) (d : String) : String :=
  match fb with
  | some f => if f = "" then d else f
  | none => d

/-- The getter returned by `createMessageGetter(messages)`, applied to
`(key, fallback, ...args)`.  Keys are strings in this embedding, so the
`typeof key !== 'string'` arm of the validity check is vacuous; the two
rejected keys are `__proto__` and `constructor`.  Message functions are
total here, so the `try`/`catch` around their invocation has no failing
branch. -/
def getMessage (messages : List (String × MessageValue)) (key : String)
    (fallback : Option String) (args : List String) : MessageValue :=
  if key = "__proto__" ∨ key = "constructor" then
    .str (fallbackOr fallback "INVALID_KEY")
  else
    match messages.lookup key with
    | some (.fn f) => .str (f args)
    | some v => v
    | none =>
      match defaultMessages.lookup key with
      | some (.fn f) => .str (f args)
      | some (.obj entries) =>
        match args.head? with
        | some nestedKey =>
          if nestedKey ≠ "__proto__" ∧ nestedKey ≠ "constructor" then
            match entries.lookup nestedKey with
            | some leaf => leaf.toValue
            | none => .obj entries
          else .obj entries
        | none => .obj entries
      | some v => v
      | none => .str (fallbackOr fallback key)

/-! ## Concrete fixtures

Small concrete posts, modules and configurations used to evaluate the
definitions on closed inputs.
-/

/-- A post categorized `JavaScript` (and tagged `js`). -/
def sampleCatPost : ProcessedPost :=
  { metadata := ⟨{ title := some "Cat", date := some "2024-01-03",
                   categories := some ["JavaScript"], tags := some ["js"] }⟩,
    date := "2024-01-03", urlPath := "/2024/01/cat" }

/-- A post only tagged `JavaScript` (no category match). -/
def sampleTagOnlyPost : ProcessedPost :=
  { metadata := ⟨{ title := some "Tag only", date := some "2024-01-02",
                   tags := some ["JavaScript"] }⟩,
    date := "2024-01-02", urlPath := "/2024/01/tag-only" }

/-- A post with a title containing every XML-special character. -/
def sampleSpicyPost : ProcessedPost :=
  { metadata := ⟨{ title := some "A&B <\"quoted\"> 'post'",
                   date := some "2024-01-05",
                   excerpt := some "x < y & z",
                   author := some { name := "O'Hara & Co" } }⟩,
    date := "2024-01-05", urlPath := "/2024/01/spicy" }

/-- A post the RSS generator must drop (no title). -/
def sampleUntitledPost : ProcessedPost :=
  { metadata := ⟨{ date := some "2024-01-04" }⟩,
    date := "2024-01-04", urlPath := "/2024/01/untitled" }

/-- The blog configuration fields used by the RSS generator, at their
shipped defaults. -/
def sampleBlogCfg : BlogCfg :=
  ⟨"Blog", "Our Blog", "/blog", 160⟩

/-- RSS options with a trailing-slash site URL and a one-item limit. -/
def sampleRssOptions : RssFeedOptions :=
  { siteUrl := "https://example.com/", maxItems := some 1 }

/-- The shipped default read-time configuration. -/
def sampleRtCfg : ReadTimeConfig :=
  ⟨225, 3, 5, 10, 1500, 3000, 5⟩

/-- A module with a parseable date. -/
def sampleModuleGood : PostModule :=
  ⟨{ title := some "Good", date := some "2024-03-05" }⟩

/-- A module with no date (must be skipped). -/
def sampleModuleBad : PostModule :=
  ⟨{ title := some "Bad" }⟩

/-- A tiny discovered-module map. -/
def sampleFiles : List (String × PostModule) :=
  [("@blog/2024/good-post.md", sampleModuleGood),
   ("@blog/2024/bad.md", sampleModuleBad)]

/-- A date parser recognizing only the good module's date. -/
def sampleParseDate : String → Option JsDate :=
  fun s => if s = "2024-03-05" then some ⟨2024, 2, 1709596800000⟩ else none

/-- The post the pipeline produces from the good module (read time
filled in from the default). -/
def samplePipelinePost : ProcessedPost :=
  { metadata := ⟨{ title := some "Good", date := some "2024-03-05",
                   readTime := some 3 }⟩,
    date := "2024-03-05", urlPath := "/2024/03/good-post",
    path := some "/src/content/Blog/2024/good-post.md",
    content := some "", lang := some "en" }

/-- A base object holding a value at the dangerous key. -/
def sampleMergeTarget : List (String × Js) :=
  [("__proto__", Js.str "safe"), ("a", Js.num 1)]

/-- An overlay trying to overwrite dangerous keys at two levels. -/
def sampleMergeSource : Js :=
  Js.obj [("__proto__", Js.str "evil"), ("a", Js.num 2),
          ("nested", Js.obj [("constructor", Js.str "evil"), ("b", Js.num 3)])]

/-! ## Theorems -/

/-- C1: `filterPostsByCategory(posts, s, slugify)` never includes a post
whose only match is via its tags (some tag slugifies to `s` but neither
the categories array nor the singular category field does); symmetrically
`filterPostsByTag(posts, s, slugify)` never includes a post matched only
via its categories. -/
theorem c1_taxonomy_disambiguation (posts : List ProcessedPost) (s : String)
    (slugifyFn : String → String) (post : ProcessedPost) :
    (post ∈ filterPostsByCategory posts s slugifyFn →
      ¬(hasMatchingTag post s slugifyFn = true ∧
        hasMatchingCategoryArray post s slugifyFn = false ∧
        hasMatchingSingularCategory post s slugifyFn = false)) ∧
    (post ∈ filterPostsByTag posts s slugifyFn →
      ¬((hasMatchingCategoryArray post s slugifyFn = true ∨
         hasMatchingSingularCategory post s slugifyFn = true) ∧
        hasMatchingTag post s slugifyFn = false)) := by
  constructor
  · intro hmem h
    obtain ⟨ht, hca, hcs⟩ := h
    rw [filterPostsByCategory] at hmem
    have hp := List.of_mem_filter hmem
    simp only [hca, hcs, ht] at hp
    simp at hp
  · intro hmem h
    obtain ⟨hc, ht⟩ := h
    rw [filterPostsByTag] at hmem
    have hp := List.of_mem_filter hmem
    simp only [ht] at hp
    simp at hp

/-- C1 witness: with a post categorized `JavaScript` and a post only
tagged `JavaScript`, membership of the categorized post in the category
filter result is consistent with the exclusion property. -/
theorem c1_taxonomy_disambiguation_witness :
    ¬(hasMatchingTag sampleCatPost "javascript" slugify = true ∧
      hasMatchingCategoryArray sampleCatPost "javascript" slugify = false ∧
      hasMatchingSingularCategory sampleCatPost "javascript" slugify = false) :=
  (c1_taxonomy_disambiguation [sampleCatPost, sampleTagOnlyPost] "javascript"
    slugify sampleCatPost).1 (by decide)

/-- C3: the exclusion clauses of the two filters are logically redundant:
each filter is extensionally equal to the simplified filter that keeps
only the positive category (resp. tag) match. -/
theorem c3_filters_equal_simplified (posts : List ProcessedPost) (s : String)
    (slugifyFn : String → String) :
    filterPostsByCategory posts s slugifyFn =
      filterPostsByCategorySimple posts s slugifyFn ∧
    filterPostsByTag posts s slugifyFn =
      filterPostsByTagSimple posts s slugifyFn := by
  constructor
  · rw [filterPostsByCategory, filterPostsByCategorySimple]
    apply List.filter_congr
    intro post _
    cases h1 : hasMatchingCategoryArray post s slugifyFn <;>
      cases h2 : hasMatchingSingularCategory post s slugifyFn <;>
      cases h3 : hasMatchingTag post s slugifyFn <;> simp [h1, h2, h3]
  · rw [filterPostsByTag, filterPostsByTagSimple]
    apply List.filter_congr
    intro post _
    cases h1 : hasMatchingCategoryArray post s slugifyFn <;>
      cases h2 : hasMatchingSingularCategory post s slugifyFn <;>
      cases h3 : hasMatchingTag post s slugifyFn <;> simp [h1, h2, h3]

/-- Lower-casing a non-empty string is non-empty. -/
theorem jsToLower_ne_empty {s : String} (h : s ≠ "") : jsToLower s ≠ "" := by
  intro he
  apply h
  rw [jsToLower] at he
  have : s.data.map jsToLowerChar = [] := congrArg String.data he
  rcases s with ⟨l⟩
  cases l with
  | nil => rfl
  | cons c cs => simp at this

/-- The canonical-name lookup never returns the empty string for a
non-empty slug: its fallback is the slug itself, and a found empty term
also falls back to the slug. -/
theorem getOriginalTaxonomyName_ne_empty (posts : List ProcessedPost)
    (f : ProcessedPost → List String) (slugifiedTerm : String)
    (g : String → String) (h : slugifiedTerm ≠ "") :
    getOriginalTaxonomyName posts f slugifiedTerm g ≠ "" := by
  rw [getOriginalTaxonomyName]
  cases hf : (posts.flatMap f).find? (fun term => g term == slugifiedTerm) with
  | none => exact h
  | some t =>
    by_cases ht : t = ""
    · simp only [ht, if_pos rfl]
      exact h
    · simp only [ht, if_neg ht]
      exact ht

/-- C2 counterexample: with no posts at all and the non-empty slug
`nonexistent`, no post matches and no taxonomy term slugifies to the
slug, yet both loaders return page data instead of throwing 404. -/
theorem c2_counterexample :
    filterPostsByCategory ([] : List ProcessedPost) "nonexistent" slugify = [] ∧
    (([] : List ProcessedPost).flatMap getPostCategories).find?
      (fun term => slugify term == "nonexistent") = none ∧
    (loadCategory [] [] "nonexistent" "en").isOk = true ∧
    filterPostsByTag ([] : List ProcessedPost) "nonexistent" slugify = [] ∧
    (([] : List ProcessedPost).flatMap getPostTags).find?
      (fun term => slugify term == "nonexistent") = none ∧
    (loadTag [] "nonexistent" "en").isOk = true := by
  refine ⟨rfl, rfl, ?_, rfl, rfl, ?_⟩ <;> decide

/-- C2 (amended): the empty-parameter guard throws 404, but for every
parameter whose stripped form is non-empty the loaders never throw: the
canonical-name lookup falls back to the (truthy) slug itself, so the
`not found` 404 branch is unreachable and page data is returned even
when no posts match and no canonical term exists. -/
theorem c2_loaders_amended (allPosts : List ProcessedPost)
    (descs : List (String × CategoryInfo)) (param lang : String)
    (h : stripTrailingSlash param ≠ "") :
    (∃ d, loadCategory allPosts descs param lang = .ok d) ∧
    (∃ d, loadTag allPosts param lang = .ok d) ∧
    loadCategory allPosts descs "" lang = .error ⟨"Category not specified", 404⟩ ∧
    loadTag allPosts "" lang = .error ⟨"Tag not specified", 404⟩ := by
  have hp : param ≠ "" := by
    intro he
    subst he
    simp [stripTrailingSlash] at h
  have hlow : jsToLower (stripTrailingSlash param) ≠ "" := jsToLower_ne_empty h
  refine ⟨?_, ?_, by rw [loadCategory]; simp, by rw [loadTag]; simp⟩
  · rw [loadCategory, if_neg hp, if_neg]
    · exact ⟨_, rfl⟩
    · intro hc
      exact getOriginalTaxonomyName_ne_empty allPosts getPostCategories _ slugify hlow hc.2
  · rw [loadTag, if_neg hp, if_neg]
    · exact ⟨_, rfl⟩
    · intro hc
      exact getOriginalTaxonomyName_ne_empty allPosts getPostTags _ slugify hlow hc.2

/-- C2 witness: the amended statement at the concrete slug `js`. -/
theorem c2_loaders_amended_witness :
    (∃ d, loadCategory [sampleCatPost] [] "js" "en" = .ok d) ∧
    (∃ d, loadTag [sampleCatPost] "js" "en" = .ok d) ∧
    loadCategory [sampleCatPost] [] "" "en" =
      .error ⟨"Category not specified", 404⟩ ∧
    loadTag [sampleCatPost] "" "en" = .error ⟨"Tag not specified", 404⟩ :=
  c2_loaders_amended [sampleCatPost] [] "js" "en" (by decide)

/-- Ceiling division of zero is zero (also for a zero divisor). -/
theorem jsCeilDiv_zero (b : Nat) : jsCeilDiv 0 b = 0 := by
  rw [jsCeilDiv]
  cases b with
  | zero => rfl
  | succ n => exact Nat.div_eq_of_lt (by omega)

/-- C5 counterexample: the claim counts `#x y` (a line beginning with `#`
but with no whitespace after the hash run) as a heading, the code's
regex does not, and with words-per-minute 1, headings weight 1 and
default time 1 the two formulas differ (2 versus 3 minutes). -/
theorem c5_counterexample :
    calculateReadTime "#x y" ⟨1, 1, 1, 1, 1000000, 2000000, 1⟩ ≠
      claimReadTime "#x y" ⟨1, 1, 1, 1, 1000000, 2000000, 1⟩ := by
  decide

/-- C5 (amended): `calculateReadTime` equals the claimed closed-form
formula once `headingCount` is the code's multiline regex match count
(a heading needs whitespace after the `#` run and at least one further
character before the line end) instead of the count of lines beginning
with `#`; everything else in the claim is as stated. -/
theorem c5_read_time_formula (content : String) (cfg : ReadTimeConfig) :
    calculateReadTime content cfg = readTimeFormula content cfg := by
  rw [calculateReadTime, readTimeFormula]
  by_cases hc : content = ""
  · subst hc
    simp [countWords, countWordsGo, stripTags, stripTagsGo, countHeadings,
      countHeadingsGo, jsCeilDiv_zero]
  · rw [if_neg hc]
    rcases Nat.eq_zero_or_pos (countHeadings content.data) with h0 | hpos
    · simp [h0, jsCeilDiv_zero]
    · simp [hpos, Nat.pos_iff_ne_zero.mp hpos]

/-- Setting a property at a different key does not change a lookup. -/
theorem lookupField_setKey_ne {k0 k : String} (hne : k0 ≠ k)
    (l : List (String × Js)) (v : Js) :
    lookupField (setKey l k0 v) k = lookupField l k := by
  rw [setKey]
  by_cases hk : hasKey l k0
  · rw [if_pos hk]
    clear hk
    induction l with
    | nil => rfl
    | cons p t ih =>
      by_cases hp : p.1 = k0
      · have e2 : ((k0, v).1 == k) = false := by simpa using hne
        have e3 : (p.1 == k) = false := by
          simp only [beq_eq_false_iff_ne, ne_eq]
          rw [hp]
          exact hne
        simp [lookupField, List.find?, hp, e2, e3] at *
        exact ih
      · have e1 : (p.1 == k0) = false := by simpa using hp
        by_cases hp2 : p.1 = k
        · have e2 : (p.1 == k) = true := by simpa using hp2
          simp [lookupField, List.find?, e1, e2]
        · have e2 : (p.1 == k) = false := by simpa using hp2
          simp [lookupField, List.find?, e1, e2] at *
          exact ih
  · rw [if_neg hk, lookupField, List.find?_append]
    have h1 : [(k0, v)].find? (fun p => p.1 == k) = none := by
      have : ((k0, v).1 == k) = false := by simpa using hne
      simp [List.find?, this]
    rw [h1, lookupField]
    cases l.find? (fun p => p.1 == k) <;> rfl
/-- The merge loop never writes at an unsafe key, at any recursion
level: a lookup at an unsafe key reads the original target value. -/
theorem lookupField_mergeEntries (k : String) (hk : isSafeKey k = false)
    (entries : List (String × Js)) :
    ∀ result, lookupField (mergeEntries result entries) k = lookupField result k := by
  induction entries with
  | nil => intro result; rw [mergeEntries]
  | cons e rest ih =>
    intro result
    obtain ⟨k0, v⟩ := e
    have hcase : isSafeKey k0 = true ∨ isSafeKey k0 = false := by
      cases isSafeKey k0 <;> simp
    rcases hcase with hs | hs
    · have hne : k0 ≠ k := by
        intro he
        rw [he, hk] at hs
        exact Bool.false_ne_true hs
      by_cases ho : isPlainObjectJs v = true
      · rw [mergeEntries]
        simp only [hs, ho, if_true]
        rw [ih, lookupField_setKey_ne hne]
      · rw [mergeEntries]
        simp only [hs, ho, if_true, if_false, Bool.false_eq_true]
        rw [ih, lookupField_setKey_ne hne]
    · rw [mergeEntries]
      simp only [hs, Bool.false_eq_true, if_false]
      exact ih result

/-- C9: `secureDeepMerge` skips `__proto__`, `constructor` and
`prototype` overlay keys at every recursion level: for any base and any
overlay, the merged object's value at such a key is exactly the base's
(in particular no overlay value ever lands there, and — prototypes being
absent from this object model — the prototype chain cannot be
affected).  The statement quantifies over all targets and sources, so it
applies to every nested merge the recursion performs. -/
theorem c9_secure_merge_skips_unsafe_keys (target : List (String × Js))
    (source : Js) (k : String) (h : isSafeKey k = false) :
    lookupField (secureDeepMerge target source) k = lookupField target k := by
  cases source with
  | obj fields =>
    rw [secureDeepMerge]
    exact lookupField_mergeEntries k h fields target
  | str s => rw [secureDeepMerge]; intro fields hf; exact Js.noConfusion hf
  | num n => rw [secureDeepMerge]; intro fields hf; exact Js.noConfusion hf
  | bool b => rw [secureDeepMerge]; intro fields hf; exact Js.noConfusion hf
  | null => rw [secureDeepMerge]; intro fields hf; exact Js.noConfusion hf
  | arr elems => rw [secureDeepMerge]; intro fields hf; exact Js.noConfusion hf

/-- C9 witness: the concrete overlay's `__proto__` value never reaches
the merged object; the base's value survives. -/
theorem c9_secure_merge_skips_unsafe_keys_witness :
    lookupField (secureDeepMerge sampleMergeTarget sampleMergeSource) "__proto__" =
      lookupField sampleMergeTarget "__proto__" :=
  c9_secure_merge_skips_unsafe_keys sampleMergeTarget sampleMergeSource
    "__proto__" (by decide)

/-- `prototype` is not a key of the built-in default message table. -/
theorem defaultMessages_lookup_prototype :
    defaultMessages.lookup "prototype" = none := by
  have h : (defaultMessages.lookup "prototype").isNone = true := by decide
  exact Option.isNone_iff_eq_none.mp h

/-- C10: the getter rejects exactly the keys `__proto__` and
`constructor` (returning the fallback, or the `INVALID_KEY` sentinel
when the fallback is absent or empty); `prototype` is an ordinary key,
so when it is absent from the user messages (it is absent from the
defaults) the getter returns a truthy fallback if one was given and the
key itself otherwise — never the sentinel.  (The `typeof key !==
'string'` arm of the check is untypeable in this embedding, where keys
are strings.) -/
theorem c10_message_getter_prototype (msgs : List (String × MessageValue))
    (fb : Option String) (args : List String) (key : String)
    (hm : msgs.lookup "prototype" = none) :
    (key = "__proto__" ∨ key = "constructor" →
      getMessage msgs key fb args = .str (fallbackOr fb "INVALID_KEY")) ∧
    getMessage msgs "prototype" fb args = .str (fallbackOr fb "prototype") ∧
    (fb = none → getMessage msgs "prototype" fb args = .str "prototype") ∧
    (∀ f, fb = some f → f ≠ "" → getMessage msgs "prototype" fb args = .str f) ∧
    (fb = none ∨ fb = some "" →
      getMessage msgs "prototype" fb args ≠ .str "INVALID_KEY") := by
  have hmain : getMessage msgs "prototype" fb args = .str (fallbackOr fb "prototype") := by
    rw [getMessage, if_neg (by decide), hm, defaultMessages_lookup_prototype]
  refine ⟨?_, hmain, ?_, ?_, ?_⟩
  · intro hk
    rw [getMessage, if_pos hk]
  · intro hfb
    rw [hmain, hfb]
    rfl
  · intro f hf hne
    rw [hmain, hf]
    simp [fallbackOr, hne]
  · intro hfb hcontra
    rcases hfb with hf | hf <;> rw [hmain, hf] at hcontra <;>
      · injection hcontra with h2
        exact absurd h2 (by decide)

/-- C10 witness: with no user messages, key `prototype` and a non-empty
fallback, the getter returns the fallback (not the sentinel). -/
theorem c10_message_getter_prototype_witness :
    getMessage [] "prototype" (some "Fallback") [] = .str "Fallback" :=
  (c10_message_getter_prototype [] (some "Fallback") [] "__proto__"
    rfl).2.2.2.1 "Fallback" rfl (by decide)

/-- C7: with a non-empty `siteUrl`, the feed holds exactly
`min n maxItems` items, where `n` counts the posts with a truthy title
and date and `maxItems` defaults to 20; an invalid post is never
selected; and the generated document is the header, one `<item>` block
per selected post, and the closing tags. -/
theorem c7_rss_item_count (cfg : BlogCfg) (now : String)
    (fmtDate : String → String) (posts : List ProcessedPost)
    (options : RssFeedOptions) (h : options.siteUrl ≠ "") :
    (rssSelectedPosts posts (options.maxItems.getD 20)).length =
      min (posts.filter rssValid).length (options.maxItems.getD 20) ∧
    (∀ post ∈ posts, rssValid post = false →
      post ∉ rssSelectedPosts posts (options.maxItems.getD 20)) ∧
    generateRssFeed cfg now fmtDate posts options =
      .ok (rssHeaderXml cfg now (stripTrailingSlash options.siteUrl)
            (options.feedTitle.getD cfg.name)
            (options.feedDescription.getD cfg.description)
            (options.feedPath.getD (cfg.uri ++ "/rss.xml"))
            (options.language.getD "en") ++
          concatStrings ((rssSelectedPosts posts (options.maxItems.getD 20)).map
            (rssItemXml cfg fmtDate (stripTrailingSlash options.siteUrl))) ++
          "</channel>\n</rss>") := by
  refine ⟨?_, ?_, ?_⟩
  · rw [rssSelectedPosts, List.length_take, Nat.min_comm]
  · intro post _ hval hmem
    rw [rssSelectedPosts] at hmem
    have hf := List.take_subset _ _ hmem
    have := List.of_mem_filter hf
    rw [hval] at this
    exact Bool.false_ne_true this
  · rw [generateRssFeed, if_neg h]

/-- C7 witness: two valid posts and one untitled post with `maxItems 1`
produce exactly one item. -/
theorem c7_rss_item_count_witness :
    (rssSelectedPosts [sampleUntitledPost, sampleCatPost, sampleTagOnlyPost]
      (sampleRssOptions.maxItems.getD 20)).length =
      min ([sampleUntitledPost, sampleCatPost, sampleTagOnlyPost].filter
        rssValid).length (sampleRssOptions.maxItems.getD 20) ∧
    (∀ post ∈ [sampleUntitledPost, sampleCatPost, sampleTagOnlyPost],
      rssValid post = false →
      post ∉ rssSelectedPosts [sampleUntitledPost, sampleCatPost, sampleTagOnlyPost]
        (sampleRssOptions.maxItems.getD 20)) ∧
    generateRssFeed sampleBlogCfg "now" id
      [sampleUntitledPost, sampleCatPost, sampleTagOnlyPost] sampleRssOptions =
      .ok (rssHeaderXml sampleBlogCfg "now"
            (stripTrailingSlash sampleRssOptions.siteUrl)
            (sampleRssOptions.feedTitle.getD sampleBlogCfg.name)
            (sampleRssOptions.feedDescription.getD sampleBlogCfg.description)
            (sampleRssOptions.feedPath.getD (sampleBlogCfg.uri ++ "/rss.xml"))
            (sampleRssOptions.language.getD "en") ++
          concatStrings ((rssSelectedPosts
            [sampleUntitledPost, sampleCatPost, sampleTagOnlyPost]
            (sampleRssOptions.maxItems.getD 20)).map
            (rssItemXml sampleBlogCfg id
              (stripTrailingSlash sampleRssOptions.siteUrl))) ++
          "</channel>\n</rss>") :=
  c7_rss_item_count sampleBlogCfg "now" id
    [sampleUntitledPost, sampleCatPost, sampleTagOnlyPost] sampleRssOptions
    (by decide)

/-- A valid code point round-trips through `Char.ofNat`. -/
theorem charOfNat_toNat {n : Nat} (h : n < 55296) : (Char.ofNat n).toNat = n := by
  rw [Char.ofNat, dif_pos]
  · rfl
  · exact Or.inl h

/-- Lower-casing never produces an ASCII uppercase letter. -/
theorem jsToLowerChar_not_upper (c : Char) :
    isUpperAscii (jsToLowerChar c) = false := by
  rw [jsToLowerChar]
  by_cases h : isUpperAscii c = true
  · rw [if_pos h]
    simp only [isUpperAscii, Bool.and_eq_true, decide_eq_true_eq] at h ⊢
    rw [Bool.and_eq_false_iff]
    right
    simp only [charOfNat_toNat (show c.toNat + 32 < 55296 by omega),
      decide_eq_false_iff_not, not_le]
    omega
  · rw [if_neg h]
    simpa using h

/-- A character fixed by lower-casing. -/
theorem jsToLowerChar_fix {c : Char} (h : isUpperAscii c = false) :
    jsToLowerChar c = c := by
  rw [jsToLowerChar, if_neg]
  simp [h]

/-- A word-or-hyphen character is never JS whitespace. -/
theorem wordOrHyphen_not_space {c : Char} (h : isWordOrHyphen c = true) :
    isJsSpace c = false := by
  simp only [isWordOrHyphen, isWordChar, Bool.or_eq_true, Bool.and_eq_true,
    decide_eq_true_eq] at h
  simp only [isJsSpace, Bool.or_eq_true, Bool.and_eq_true, decide_eq_true_eq,
    Bool.or_eq_false_iff, Bool.and_eq_false_iff, decide_eq_false_iff_not]
  rcases h with ((((h | h) | h) | h) | h)
  · omega
  · omega
  · omega
  · omega
  · rw [h]
    decide

/-- Inside a run, the next emitted character never satisfies `p`. -/
theorem collapseRunsGo_head_true (p : Char → Bool) (rep : Char) :
    ∀ (l : List Char) (c : Char),
      (collapseRunsGo p rep true l).head? = some c → p c = false := by
  intro l
  induction l with
  | nil => intro c h; simp [collapseRunsGo] at h
  | cons a t ih =>
    intro c h
    rw [collapseRunsGo] at h
    by_cases hp : p a = true
    · rw [if_pos hp, if_pos rfl] at h
      exact ih c h
    · rw [if_neg hp] at h
      simp only [List.head?_cons, Option.some.injEq] at h
      rw [← h]
      simpa using hp

/-- No two consecutive characters of a collapsed list satisfy `p`. -/
theorem collapseRunsGo_chain (p : Char → Bool) (rep : Char) :
    ∀ (l : List Char) (b : Bool),
      List.Chain' (fun a c => p a = false ∨ p c = false)
        (collapseRunsGo p rep b l) := by
  intro l
  induction l with
  | nil => intro b; rw [collapseRunsGo]; exact List.chain'_nil
  | cons a t ih =>
    intro b
    rw [collapseRunsGo]
    by_cases hp : p a = true
    · rw [if_pos hp]
      cases b with
      | true => exact ih true
      | false =>
        rw [if_neg (by simp)]
        rw [List.chain'_cons']
        refine ⟨?_, ih true⟩
        intro c hc
        exact Or.inr (collapseRunsGo_head_true p rep t c hc)
    · rw [if_neg hp]
      rw [List.chain'_cons']
      refine ⟨?_, ih false⟩
      intro c _
      exact Or.inl (by simpa using hp)

/-- The flag is irrelevant when the head is not a `p`-character. -/
theorem collapseRunsGo_flag_irrel (p : Char → Bool) (rep : Char)
    (l : List Char) (hl : ∀ c, l.head? = some c → p c = false) :
    collapseRunsGo p rep true l = collapseRunsGo p rep false l := by
  cases l with
  | nil => rfl
  | cons a t =>
    rw [collapseRunsGo, collapseRunsGo, if_neg, if_neg] <;>
      simp [hl a rfl]

/-- Collapsing is the identity on a list with no adjacent
`p`-characters, provided every `p`-character is already `rep`. -/
theorem collapseRunsGo_fix (p : Char → Bool) (rep : Char)
    (hid : ∀ c, p c = true → c = rep) :
    ∀ l : List Char,
      List.Chain' (fun a c => p a = false ∨ p c = false) l →
      collapseRunsGo p rep false l = l := by
  intro l
  induction l with
  | nil => intro _; rfl
  | cons a t ih =>
    intro hch
    rw [collapseRunsGo]
    by_cases hp : p a = true
    · rw [if_pos hp, if_neg (by simp)]
      have hhead : ∀ c, t.head? = some c → p c = false := by
        intro c hc
        cases t with
        | nil => simp at hc
        | cons c0 t0 =>
          simp only [List.head?_cons, Option.some.injEq] at hc
          rcases (List.chain'_cons.mp hch).1 with h | h
          · rw [hp] at h
            exact absurd h (by simp)
          · rw [← hc]
            exact h
      rw [collapseRunsGo_flag_irrel p rep t hhead, ih hch.tail, hid a hp]
    · rw [if_neg hp]
      rw [ih hch.tail]

/-- Collapsing is the identity on a list with no `p`-characters. -/
theorem collapseRunsGo_id (p : Char → Bool) (rep : Char) :
    ∀ (l : List Char) (b : Bool), (∀ c ∈ l, p c = false) →
      collapseRunsGo p rep b l = l := by
  intro l
  induction l with
  | nil => intro b _; rfl
  | cons a t ih =>
    intro b h
    rw [collapseRunsGo, if_neg (by simp [h a (List.mem_cons_self a t)])]
    rw [ih false (fun c hc => h c (List.mem_cons_of_mem a hc))]

/-- Every character of a collapsed list is `rep` or came from the
input. -/
theorem mem_collapseRunsGo (p : Char → Bool) (rep : Char) :
    ∀ (l : List Char) (b : Bool) (c : Char),
      c ∈ collapseRunsGo p rep b l → c = rep ∨ c ∈ l := by
  intro l
  induction l with
  | nil => intro b c h; rw [collapseRunsGo] at h; cases h
  | cons a t ih =>
    intro b c h
    rw [collapseRunsGo] at h
    by_cases hp : p a = true
    · rw [if_pos hp] at h
      cases b with
      | true =>
        rw [if_pos rfl] at h
        rcases ih true c h with h2 | h2
        · exact Or.inl h2
        · exact Or.inr (List.mem_cons_of_mem a h2)
      | false =>
        rw [if_neg (by simp)] at h
        rcases List.mem_cons.mp h with h2 | h2
        · exact Or.inl h2
        · rcases ih true c h2 with h3 | h3
          · exact Or.inl h3
          · exact Or.inr (List.mem_cons_of_mem a h3)
    · rw [if_neg hp] at h
      rcases List.mem_cons.mp h with h2 | h2
      · exact Or.inr (h2 ▸ List.mem_cons_self a t)
      · rcases ih false c h2 with h3 | h3
        · exact Or.inl h3
        · exact Or.inr (List.mem_cons_of_mem a h3)

/-- Trimming only keeps characters of the input. -/
theorem mem_jsTrim (l : List Char) (c : Char) (h : c ∈ jsTrim l) : c ∈ l := by
  rw [jsTrim] at h
  have h1 := List.mem_reverse.mp h
  have h2 := (List.dropWhile_sublist isJsSpace (l := (l.dropWhile isJsSpace).reverse)).subset h1
  have h3 := List.mem_reverse.mp h2
  exact (List.dropWhile_sublist isJsSpace (l := l)).subset h3

/-- Dropping-while is the identity when no character matches. -/
theorem dropWhile_id_of (p : Char → Bool) (l : List Char)
    (h : ∀ c ∈ l, p c = false) : l.dropWhile p = l := by
  cases l with
  | nil => rfl
  | cons a t =>
    rw [List.dropWhile_cons, if_neg]
    simp [h a (List.mem_cons_self a t)]

/-- Trimming is the identity on a list with no whitespace. -/
theorem jsTrim_id (l : List Char) (h : ∀ c ∈ l, isJsSpace c = false) :
    jsTrim l = l := by
  rw [jsTrim, dropWhile_id_of _ _ h, dropWhile_id_of, List.reverse_reverse]
  intro c hc
  exact h c (List.mem_reverse.mp hc)

/-- Mapping a function that fixes every element is the identity. -/
theorem map_fix_id (f : Char → Char) (l : List Char)
    (h : ∀ c ∈ l, f c = c) : l.map f = l := by
  induction l with
  | nil => rfl
  | cons a t ih =>
    rw [List.map_cons, h a (List.mem_cons_self a t),
      ih (fun c hc => h c (List.mem_cons_of_mem a hc))]

/-- Every character of a slug is a lowercase word-or-hyphen character. -/
theorem mem_slugifyList (l : List Char) (c : Char) (hc : c ∈ slugifyList l) :
    isWordOrHyphen c = true ∧ isUpperAscii c = false := by
  rw [slugifyList, collapseRuns] at hc
  rcases mem_collapseRunsGo _ _ _ _ _ hc with h | h
  · rw [h]
    exact ⟨by decide, by decide⟩
  · refine ⟨List.of_mem_filter h, ?_⟩
    have hm := List.mem_of_mem_filter h
    rw [collapseRuns] at hm
    rcases mem_collapseRunsGo _ _ _ _ _ hm with h2 | h2
    · rw [h2]
      decide
    · have h3 := mem_jsTrim _ _ h2
      obtain ⟨a, _, ha⟩ := List.mem_map.mp h3
      rw [← ha]
      exact jsToLowerChar_not_upper a

/-- The list-level slugification is idempotent. -/
theorem slugifyList_idem (l : List Char) :
    slugifyList (slugifyList l) = slugifyList l := by
  have hmem := mem_slugifyList l
  have h1 : (slugifyList l).map jsToLowerChar = slugifyList l :=
    map_fix_id _ _ (fun c hc => jsToLowerChar_fix (hmem c hc).2)
  have hnospace : ∀ c ∈ slugifyList l, isJsSpace c = false :=
    fun c hc => wordOrHyphen_not_space (hmem c hc).1
  have h2 : jsTrim (slugifyList l) = slugifyList l := jsTrim_id _ hnospace
  have h3 : collapseRuns isJsSpace '-' (slugifyList l) = slugifyList l :=
    collapseRunsGo_id _ _ _ _ hnospace
  have h4 : (slugifyList l).filter isWordOrHyphen = slugifyList l :=
    List.filter_eq_self.mpr (fun c hc => (hmem c hc).1)
  have h5 : collapseRuns (fun c => c = '-') '-' (slugifyList l) = slugifyList l := by
    rw [collapseRuns]
    refine collapseRunsGo_fix _ _ (fun c hc => by simpa using hc) _ ?_
    rw [slugifyList, collapseRuns]
    exact collapseRunsGo_chain _ _ _ _
  conv_lhs => rw [slugifyList, h1, h2, h3, h4, h5]

/-- C8: `slugify` is idempotent (it lowercases, collapses whitespace and
hyphen runs to single hyphens and strips all non-word non-hyphen
characters, so a slug is a fixed point), and takes the specified values
on the three example inputs. -/
theorem c8_slugify_idempotent :
    (∀ x : String, slugify (slugify x) = slugify x) ∧
    slugify "hello   world" = "hello-world" ∧
    slugify "café résumé" = "caf-rsum" ∧
    slugify "###" = "" := by
  refine ⟨?_, by decide, by decide, by decide⟩
  intro x
  rw [slugify, slugify]
  exact congrArg String.mk (slugifyList_idem x.data)

/-- Every post a module contributes carries the module's date and the
URL path derived from its parse and slug. -/
theorem processModule_shape (cfg : ReadTimeConfig)
    (parseDate : String → Option JsDate) (contentOf : String → String)
    (opts : GetAllPostsOptions) (fp : String) (m : PostModule) :
    ∀ post ∈ processModule cfg parseDate contentOf opts fp m,
      ∃ d jd, m.metadata.date = some d ∧ parseDate d = some jd ∧
        post.date = d ∧ post.urlPath = urlPathOf jd (derivedSlug m fp) := by
  intro post hpost
  rw [processModule] at hpost
  cases hdate : m.metadata.date with
  | none =>
    simp only [hdate] at hpost
    cases hpost
  | some d =>
    simp only [hdate] at hpost
    by_cases hd : d = ""
    · rw [if_pos hd] at hpost
      cases hpost
    · rw [if_neg hd] at hpost
      cases hjd : parseDate d with
      | none =>
        simp only [hjd] at hpost
        cases hpost
      | some jd =>
        simp only [hjd] at hpost
        refine ⟨d, jd, rfl, hjd, ?_⟩
        split_ifs at hpost <;>
          obtain h | h := List.mem_cons.mp hpost <;>
            first
              | (rw [h]; exact ⟨rfl, rfl⟩)
              | cases h
              | (obtain ⟨e, he1, he⟩ := List.mem_map.mp h
                 rw [← he]
                 exact ⟨rfl, rfl⟩)

/-- C4: every post `getAllPosts` returns has a date that parses to a
valid date and a `urlPath` of the form `/{year}/{2-digit month}/{slug}`
derived from that date and from its module's slug (explicit frontmatter
slug winning over the filename); a module with a missing or unparsable
date contributes no posts (and fails nothing); and the returned list is
sorted descending by date. -/
theorem c4_pipeline_invariants (cfg : ReadTimeConfig)
    (parseDate : String → Option JsDate) (contentOf : String → String)
    (files : List (String × PostModule)) (opts : GetAllPostsOptions) :
    (∀ post ∈ getAllPosts cfg parseDate contentOf files opts,
      ∃ jd, parseDate post.date = some jd ∧
        ∃ fp m, (fp, m) ∈ files ∧ m.metadata.date = some post.date ∧
          post.urlPath = urlPathOf jd (derivedSlug m fp)) ∧
    (∀ fp m, m.metadata.date.bind parseDate = none →
      processModule cfg parseDate contentOf opts fp m = []) ∧
    List.Sorted (postDateGE parseDate)
      (getAllPosts cfg parseDate contentOf files opts) := by
  refine ⟨?_, ?_, ?_⟩
  · intro post hmem
    rw [getAllPosts] at hmem
    have hmem2 := (List.perm_insertionSort (postDateGE parseDate) _).mem_iff.mp hmem
    obtain ⟨⟨fp, m⟩, hin, hpost⟩ := List.mem_flatMap.mp hmem2
    obtain ⟨d, jd, hd, hjd, hdate, hurl⟩ :=
      processModule_shape cfg parseDate contentOf opts fp m post hpost
    refine ⟨jd, ?_, fp, m, hin, ?_, hurl⟩
    · rw [hdate, hjd]
    · rw [hd, hdate]
  · intro fp m h
    rw [processModule]
    cases hdate : m.metadata.date with
    | none => simp only [hdate]
    | some d =>
      rw [hdate] at h
      simp only [Option.some_bind] at h
      simp only [hdate]
      by_cases hd : d = ""
      · rw [if_pos hd]
      · rw [if_neg hd, h]
  · rw [getAllPosts]
    exact List.sorted_insertionSort (postDateGE parseDate) _

/-- C4 witness: the two-module fixture yields exactly the good post,
whose date parses and whose URL path is `/2024/03/good-post`. -/
theorem c4_pipeline_invariants_witness :
    ∃ jd, sampleParseDate samplePipelinePost.date = some jd ∧
      ∃ fp m, (fp, m) ∈ sampleFiles ∧
        m.metadata.date = some samplePipelinePost.date ∧
        samplePipelinePost.urlPath = urlPathOf jd (derivedSlug m fp) :=
  (c4_pipeline_invariants sampleRtCfg sampleParseDate (fun _ => "")
    sampleFiles {}).1 samplePipelinePost (by decide)

/-- Character replacement distributes over append. -/
theorem replaceAllChar_append (c : Char) (rep : List Char) :
    ∀ l1 l2 : List Char,
      replaceAllChar c rep (l1 ++ l2) =
        replaceAllChar c rep l1 ++ replaceAllChar c rep l2 := by
  intro l1 l2
  induction l1 with
  | nil => rfl
  | cons a t ih =>
    rw [List.cons_append, replaceAllChar, replaceAllChar, ih, List.append_assoc]

/-- The five sequential replaces act on each character independently:
the stack equals the single-pass entity map (hence no entity produced by
the ampersand pass is ever escaped again). -/
theorem escapeStack_eq_singlePass (l : List Char) :
    replaceAllChar '\'' "&apos;".data
      (replaceAllChar '"' "&quot;".data
        (replaceAllChar '>' "&gt;".data
          (replaceAllChar '<' "&lt;".data
            (replaceAllChar '&' "&amp;".data l)))) =
      singlePassEscapeList l := by
  induction l with
  | nil => rfl
  | cons c cs ih =>
    rw [show replaceAllChar '&' "&amp;".data (c :: cs) =
        (if c = '&' then "&amp;".data else [c]) ++
          replaceAllChar '&' "&amp;".data cs from rfl]
    rw [replaceAllChar_append, replaceAllChar_append, replaceAllChar_append,
      replaceAllChar_append, ih, singlePassEscapeList]
    congr 1
    by_cases h1 : c = '&'
    · rw [if_pos h1, h1]
      decide
    · rw [if_neg h1]
      by_cases h2 : c = '<'
      · rw [h2]
        decide
      · by_cases h3 : c = '>'
        · rw [h3]
          decide
        · by_cases h4 : c = '"'
          · rw [h4]
            decide
          · by_cases h5 : c = '\''
            · rw [h5]
              decide
            · rw [xmlEntityOf, if_neg h1, if_neg h2, if_neg h3, if_neg h4,
                if_neg h5]
              simp [replaceAllChar, h2, h3, h4, h5]

/-- `escapeXml` equals the single-pass entity substitution. -/
theorem escapeXml_eq_singlePass (s : String) :
    escapeXml s = singlePassEscape s := by
  by_cases hs : s = ""
  · rw [hs]
    decide
  · rw [escapeXml, if_neg hs, singlePassEscape]
    exact congrArg String.mk (escapeStack_eq_singlePass s.data)

/-- Single-pass escaping distributes over append. -/
theorem singlePassEscapeList_append (l1 l2 : List Char) :
    singlePassEscapeList (l1 ++ l2) =
      singlePassEscapeList l1 ++ singlePassEscapeList l2 := by
  induction l1 with
  | nil => rfl
  | cons a t ih =>
    rw [List.cons_append, singlePassEscapeList, singlePassEscapeList, ih,
      List.append_assoc]

/-- Every character of the escaped output comes from some input
character's entity. -/
theorem mem_singlePassEscapeList (c : Char) :
    ∀ l : List Char, c ∈ singlePassEscapeList l → ∃ a ∈ l, c ∈ xmlEntityOf a := by
  intro l
  induction l with
  | nil => intro h; cases h
  | cons a t ih =>
    intro h
    rw [singlePassEscapeList] at h
    rcases List.mem_append.mp h with h2 | h2
    · exact ⟨a, List.mem_cons_self a t, h2⟩
    · obtain ⟨b, hb, hc⟩ := ih h2
      exact ⟨b, List.mem_cons_of_mem a hb, hc⟩

/-- No entity (and no unchanged non-special character) contains a raw
`<`, `>`, `"` or `'`. -/
theorem xmlEntityOf_no_raw (a c : Char) (h : c ∈ xmlEntityOf a) :
    c ∉ (['<', '>', '"', '\''] : List Char) := by
  rw [xmlEntityOf] at h
  split_ifs at h with h1 h2 h3 h4 h5
  · simp only [String.data] at h
    fin_cases h <;> decide
  · simp only [String.data] at h
    fin_cases h <;> decide
  · simp only [String.data] at h
    fin_cases h <;> decide
  · simp only [String.data] at h
    fin_cases h <;> decide
  · simp only [String.data] at h
    fin_cases h <;> decide
  · have hac := List.mem_singleton.mp h
    subst hac
    intro hc
    simp only [List.mem_cons, List.mem_singleton, List.not_mem_nil,
      or_false] at hc
    rcases hc with hc | hc | hc | hc
    · exact h2 hc
    · exact h3 hc
    · exact h4 hc
    · exact h5 hc

/-- An infix of a list is an infix of any right extension. -/
theorem inf_r {L X : List Char} (Y : List Char) (h : L <:+: X) : L <:+: X ++ Y := by
  obtain ⟨s, t, hst⟩ := h
  exact ⟨s, t ++ Y, by rw [← hst]; simp [List.append_assoc]⟩

/-- An infix of a list is an infix of any left extension. -/
theorem inf_l {L Y : List Char} (X : List Char) (h : L <:+: Y) : L <:+: X ++ Y := by
  obtain ⟨s, t, hst⟩ := h
  exact ⟨X ++ s, t, by rw [← hst]; simp [List.append_assoc]⟩

/-- The entity of any input character is an infix of the escaped list. -/
theorem entity_infix_of_mem (c0 : Char) (l : List Char) (h : c0 ∈ l) :
    xmlEntityOf c0 <:+: singlePassEscapeList l := by
  obtain ⟨l1, l2, rfl⟩ := List.append_of_mem h
  rw [singlePassEscapeList_append, singlePassEscapeList]
  exact ⟨singlePassEscapeList l1, singlePassEscapeList l2, by
    simp [List.append_assoc]⟩

/-- A member of a string list is an infix of the concatenation. -/
theorem mem_concatStrings_infix (x : String) (l : List String) (h : x ∈ l) :
    x.data <:+: (concatStrings l).data := by
  induction l with
  | nil => cases h
  | cons s rest ih =>
    rw [concatStrings, String.data_append]
    rcases List.mem_cons.mp h with h2 | h2
    · rw [h2]
      exact ⟨[], (concatStrings rest).data, by simp⟩
    · exact inf_l _ (ih h2)

/-- The escaped title element is an infix of its item block. -/
theorem title_infix_item (cfg : BlogCfg) (fmtDate : String → String)
    (baseUrl : String) (post : ProcessedPost) :
    ("<title>" ++ escapeXml (rssItemTitle post) ++ "</title>").data <:+:
      (rssItemXml cfg fmtDate baseUrl post).data := by
  rw [rssItemXml]
  simp only [String.data_append]
  iterate 15 refine inf_r _ ?_
  exact inf_l _ (List.infix_refl _)

/-- The escaped description element is an infix of its item block. -/
theorem description_infix_item (cfg : BlogCfg) (fmtDate : String → String)
    (baseUrl : String) (post : ProcessedPost) :
    ("<description>" ++ escapeXml (rssItemExcerpt cfg post) ++ "</description>").data <:+:
      (rssItemXml cfg fmtDate baseUrl post).data := by
  rw [rssItemXml]
  simp only [String.data_append]
  iterate 5 refine inf_r _ ?_
  exact inf_l _ (List.infix_refl _)

/-- The escaped author element is an infix of its item block. -/
theorem author_infix_item (cfg : BlogCfg) (fmtDate : String → String)
    (baseUrl : String) (post : ProcessedPost) :
    ("<author>" ++ escapeXml (rssItemAuthor cfg post) ++ "</author>").data <:+:
      (rssItemXml cfg fmtDate baseUrl post).data := by
  rw [rssItemXml]
  simp only [String.data_append]
  iterate 3 refine inf_r _ ?_
  exact inf_l _ (List.infix_refl _)

/-- C6: escaping leaves no raw `<`, `>`, `"` or `'` in the output, puts
the corresponding entity in the output for every special character of
the input, and — because the ampersand is replaced first — equals the
single-pass per-character entity substitution, so no entity is ever
double-escaped; and the feed places the escaped title, description and
author of every selected post inside the corresponding XML element. -/
theorem c6_rss_escaping :
    (∀ s : String,
      '<' ∉ (escapeXml s).data ∧ '>' ∉ (escapeXml s).data ∧
      '"' ∉ (escapeXml s).data ∧ '\'' ∉ (escapeXml s).data ∧
      escapeXml s = singlePassEscape s ∧
      ('&' ∈ s.data → "&amp;".data <:+: (escapeXml s).data) ∧
      ('<' ∈ s.data → "&lt;".data <:+: (escapeXml s).data) ∧
      ('>' ∈ s.data → "&gt;".data <:+: (escapeXml s).data) ∧
      ('"' ∈ s.data → "&quot;".data <:+: (escapeXml s).data) ∧
      ('\'' ∈ s.data → "&apos;".data <:+: (escapeXml s).data)) ∧
    (∀ (cfg : BlogCfg) (now : String) (fmtDate : String → String)
        (posts : List ProcessedPost) (options : RssFeedOptions)
        (feed : String) (post : ProcessedPost),
      generateRssFeed cfg now fmtDate posts options = .ok feed →
      post ∈ rssSelectedPosts posts (options.maxItems.getD 20) →
      ("<title>" ++ escapeXml (rssItemTitle post) ++ "</title>").data <:+:
        feed.data ∧
      ("<description>" ++ escapeXml (rssItemExcerpt cfg post) ++
        "</description>").data <:+: feed.data ∧
      ("<author>" ++ escapeXml (rssItemAuthor cfg post) ++
        "</author>").data <:+: feed.data) := by
  constructor
  · intro s
    have hdata : (escapeXml s).data = singlePassEscapeList s.data := by
      rw [escapeXml_eq_singlePass]
      rfl
    have hraw : ∀ c : Char, c ∈ (['<', '>', '"', '\''] : List Char) →
        c ∉ (escapeXml s).data := by
      intro c hcl hmem
      rw [hdata] at hmem
      obtain ⟨a, _, hc⟩ := mem_singlePassEscapeList c s.data hmem
      exact xmlEntityOf_no_raw a c hc hcl
    have hent : ∀ c : Char, c ∈ s.data →
        xmlEntityOf c <:+: (escapeXml s).data := by
      intro c hc
      rw [hdata]
      exact entity_infix_of_mem c s.data hc
    refine ⟨hraw '<' (by decide), hraw '>' (by decide), hraw '"' (by decide),
      hraw '\'' (by decide), by rw [escapeXml_eq_singlePass], ?_, ?_, ?_, ?_, ?_⟩
    · intro h
      exact (show xmlEntityOf '&' = "&amp;".data by decide) ▸ hent '&' h
    · intro h
      exact (show xmlEntityOf '<' = "&lt;".data by decide) ▸ hent '<' h
    · intro h
      exact (show xmlEntityOf '>' = "&gt;".data by decide) ▸ hent '>' h
    · intro h
      exact (show xmlEntityOf '"' = "&quot;".data by decide) ▸ hent '"' h
    · intro h
      exact (show xmlEntityOf '\'' = "&apos;".data by decide) ▸ hent '\'' h
  · intro cfg now fmtDate posts options feed post hfeed hmem
    rw [generateRssFeed] at hfeed
    by_cases hsite : options.siteUrl = ""
    · rw [if_pos hsite] at hfeed
      cases hfeed
    · rw [if_neg hsite] at hfeed
      simp only [Except.ok.injEq] at hfeed
      subst hfeed
      have hitem :
          rssItemXml cfg fmtDate (stripTrailingSlash options.siteUrl) post ∈
            (rssSelectedPosts posts (options.maxItems.getD 20)).map
              (rssItemXml cfg fmtDate (stripTrailingSlash options.siteUrl)) :=
        List.mem_map_of_mem _ hmem
      have hconcat :
          (rssItemXml cfg fmtDate (stripTrailingSlash options.siteUrl)
            post).data <:+:
          (concatStrings
            ((rssSelectedPosts posts (options.maxItems.getD 20)).map
              (rssItemXml cfg fmtDate (stripTrailingSlash options.siteUrl)))).data :=
        mem_concatStrings_infix _ _ hitem
      have hwhole :
          (concatStrings
            ((rssSelectedPosts posts (options.maxItems.getD 20)).map
              (rssItemXml cfg fmtDate (stripTrailingSlash options.siteUrl)))).data <:+:
          (rssHeaderXml cfg now (stripTrailingSlash options.siteUrl)
              (options.feedTitle.getD cfg.name)
              (options.feedDescription.getD cfg.description)
              (options.feedPath.getD (cfg.uri ++ "/rss.xml"))
              (options.language.getD "en") ++
            concatStrings
              ((rssSelectedPosts posts (options.maxItems.getD 20)).map
                (rssItemXml cfg fmtDate (stripTrailingSlash options.siteUrl))) ++
            "</channel>\n</rss>").data := by
        simp only [String.data_append]
        exact inf_r _ (inf_l _ (List.infix_refl _))
      have hfull := hconcat.trans hwhole
      exact ⟨(title_infix_item cfg fmtDate _ post).trans hfull,
        (description_infix_item cfg fmtDate _ post).trans hfull,
        (author_infix_item cfg fmtDate _ post).trans hfull⟩

/-- C6 witness: the escaped ampersand entity appears in the escape of a
concrete excerpt containing `&`. -/
theorem c6_rss_escaping_witness :
    "&amp;".data <:+: (escapeXml "x < y & z").data :=
  (c6_rss_escaping.1 "x < y & z").2.2.2.2.2.1 (by decide)
